import Mathlib

/-!
Verification of the adaptive tabular-query pipeline (Intergold_PoC).

Shallow embedding of the two pipeline source files:
* `src/processing.py` — category sequencer (`order_ppc_delivery_period`) and
  aggregator (`process_query`);
* `src/app.py` — header locator (`detect_header_row`), column normalizer,
  date-parse cascade and fiscal-window computation of `query_data`.

Behaviour of the external libraries (pandas / dateutil / CPython built-ins)
is modelled by small executable functions, each marked in its doc comment.
Python's stable sorts (`sorted`, pandas lexsort) are modelled by sorting
index-decorated lists under a strict-on-ties lexicographic order, which is
exactly stability.
-/

/-! ## Python built-in string behaviour (character-level, ASCII data) -/

/-- Modelled from CPython: the whitespace characters recognised by
`str.split()` / `str.strip()` (ASCII subset; the data contains no exotic
unicode whitespace). -/
def pyIsSpace (c : Char) : Bool :=
  c = ' ' || c = '\t' || c = '\n' || c = '\r' || c = '\x0b' || c = '\x0c'

/-- Worker for `pyTokens`, accumulating the current (reversed) token. -/
def pyTokensGo (cur : List Char) : List Char → List String
  | [] => if cur = [] then [] else [String.mk cur.reverse]
  | c :: cs =>
    if pyIsSpace c then
      if cur = [] then pyTokensGo [] cs else String.mk cur.reverse :: pyTokensGo [] cs
    else pyTokensGo (c :: cur) cs

/-- Modelled from CPython: `str.split()` with no argument splits on runs of
whitespace and drops empty pieces, so `"".split() = []` and
`"  ".split() = []`. -/
def pyTokens (s : String) : List String := pyTokensGo [] s.toList

/-- Modelled from CPython: `str.isdigit()` — `False` on the empty string,
`True` when every character is a digit (ASCII digits in our data). -/
def pyIsDigit (s : String) : Bool :=
  s ≠ "" && s.toList.all Char.isDigit

/-- Modelled from CPython: `str.strip()` with no argument removes leading and
trailing whitespace. -/
def pyStrip (s : String) : String :=
  String.mk (((s.toList.dropWhile pyIsSpace).reverse.dropWhile pyIsSpace).reverse)

/-- Modelled from CPython: `str.lower()` (ASCII case folding; the column
names contain no exotic cased characters). -/
def pyLower (s : String) : String := String.mk (s.toList.map Char.toLower)

/-- Modelled from CPython: `str.startswith(pre)`. -/
def pyStarts (pre s : String) : Bool :=
  decide (s.toList.take pre.toList.length = pre.toList)

/-- Modelled from CPython: `s.replace('.','').replace('-','')` — removal of
every dot and dash. -/
def pyDropDotDash (s : String) : String :=
  String.mk (s.toList.filter (fun c => !(c = '.' || c = '-')))

/-- Modelled from CPython: `int(s)` for a string of ASCII digits. -/
def pyStrToNat (s : String) : Nat :=
  s.toList.foldl (fun acc c => acc * 10 + (c.toNat - '0'.toNat)) 0

deriving instance DecidableEq for Except

/-- Python exceptions that the embedded code can raise. -/
inductive PyErr where
  | indexError
  | valueError (msg : String)
  | keyError (key : String)
  | attributeError (attr : String)
deriving DecidableEq

/-! ## Data model for `src/processing.py`

A pandas cell is a string, a number, or a missing value (NaN). Metric cells
are modelled as integers; float rounding is irrelevant to the claims. -/

inductive PValue where
  | s (v : String)
  | i (v : Int)
  | none_
deriving DecidableEq

/-- First-occurrence deduplication, worker. -/
def uniqueFirstGo [DecidableEq α] (seen : List α) : List α → List α
  | [] => []
  | x :: xs => if x ∈ seen then uniqueFirstGo seen xs else x :: uniqueFirstGo (x :: seen) xs

/-- Modelled from pandas: `Series.unique()` keeps the first occurrence of
each distinct value, in encounter order. -/
def uniqueFirst [DecidableEq α] (l : List α) : List α := uniqueFirstGo [] l

/-! ## Category Sequencer — `order_ppc_delivery_period` (src/processing.py lines 30-42) -/

/-- The sort key of `order_ppc_delivery_period`
(`int(x.split()[0]) if isinstance(x, str) and x.split()[0].isdigit() else 0`):
for a string label, taking `x.split()[0]` of a tokenless string raises
`IndexError`; otherwise the leading token if it is all digits, else `0`;
non-strings short-circuit to `0`. -/
def ppcSortKey : PValue → Except PyErr Int
  | .s v =>
    match pyTokens v with
    | [] => .error .indexError
    | t :: _ => .ok (if pyIsDigit t then (pyStrToNat t : Int) else 0)
  | .i _ => .ok 0
  | .none_ => .ok 0

/-- Total version of `ppcSortKey` (defaults to 0 where the source raises),
used only to state properties. -/
def keyTotal (v : PValue) : Int :=
  match ppcSortKey v with
  | .ok k => k
  | .error _ => 0

/-- The fixed-priority labels hardcoded in `order_ppc_delivery_period`:
`['Overdue','Due']`. -/
def ppcFixedLabels : List PValue := [PValue.s "Overdue", PValue.s "Due"]

/-- The list comprehension
`[v for v in df['PPC Delivery Period'].unique() if v not in ('Overdue','Due')]`. -/
def remainderPPC (colVals : List PValue) : List PValue :=
  (uniqueFirst colVals).filter
    (fun v => !(decide (v = PValue.s "Overdue") || decide (v = PValue.s "Due")))

/-- Key computation of Python `sorted(..., key=...)`: keys are computed
left-to-right before sorting; the first raising element propagates. -/
def mapKeysE : List PValue → Except PyErr (List (PValue × Int))
  | [] => .ok []
  | v :: vs =>
    match ppcSortKey v with
    | .error e => .error e
    | .ok k =>
      match mapKeysE vs with
      | .error e => .error e
      | .ok rest => .ok ((v, k) :: rest)

/-- Order used to model `sorted(..., reverse=True)` on index-decorated keyed
pairs: key descending, ties broken by original position ascending (Python's
sort is stable and `reverse=True` keeps equal elements in original order). -/
def ppcKeyedRel (a b : Nat × (PValue × Int)) : Prop :=
  b.2.2 < a.2.2 ∨ (a.2.2 = b.2.2 ∧ a.1 ≤ b.1)

instance : DecidableRel ppcKeyedRel := fun a b => by unfold ppcKeyedRel; infer_instance

/-- Modelled from CPython: `sorted(keyed, reverse=True)` by the attached key,
stable. -/
def pyStableSortDesc (keyed : List (PValue × Int)) : List (PValue × Int) :=
  (List.insertionSort ppcKeyedRel (keyed.enumFrom 0)).map (fun p => p.2)

/-- Embedding of `order_ppc_delivery_period` (src/processing.py lines 30-42),
returning the category list `cat_order` it builds and installs as the
`pd.Categorical` categories: `['Overdue','Due'] + weeks` where `weeks` is the
remainder of the observed labels sorted descending by `ppcSortKey`.
`pd.Categorical` raises `ValueError` when the requested categories contain a
null (modelled from pandas). -/
def order_ppc_delivery_period (colVals : List PValue) : Except PyErr (List PValue) :=
  match mapKeysE (remainderPPC colVals) with
  | .error e => .error e
  | .ok keyed =>
    let weeks := (pyStableSortDesc keyed).map (fun p => p.1)
    let cat_order := ppcFixedLabels ++ weeks
    if PValue.none_ ∈ cat_order then .error (.valueError "Categorical categories cannot be null")
    else .ok cat_order

/-! ## Aggregator — `process_query` (src/processing.py lines 44-73) -/

/-- A dataframe: named columns and rows of cells (row-major). -/
structure DF where
  cols : List String
  rows : List (List PValue)

/-- Cell access `row[c]` by column name. -/
def rowGet (cols : List String) (row : List PValue) (c : String) : PValue :=
  match cols.findIdx? (fun x => decide (x = c)) with
  | some i => row.getD i PValue.none_
  | none => PValue.none_

/-- One record of the aggregated output (`to_dict(orient='records')`): the
grouping-attribute values, the `PPC Delivery Period` value, and the summed
metric renamed `total`. -/
structure AggRow where
  attrs : List PValue
  ppc : PValue
  total : Int
deriving DecidableEq

def pvalTag : PValue → Nat
  | .s _ => 0
  | .i _ => 1
  | .none_ => 2

/-- Total comparison on cells, used only to model the ascending group-key
order of `groupby(..., sort=True)`. -/
def pvalLE (a b : PValue) : Bool :=
  match a, b with
  | .s x, .s y => decide (x.toList ≤ y.toList)
  | .i x, .i y => decide (x ≤ y)
  | _, _ => decide (pvalTag a ≤ pvalTag b)

def pvalListLE : List PValue → List PValue → Bool
  | [], _ => true
  | _ :: _, [] => false
  | a :: as_, b :: bs => if a = b then pvalListLE as_ bs else pvalLE a b

/-- Position of a value in the Categorical categories, modelling
`pd.Categorical(..., categories=cat_order, ordered=True)` codes. -/
def ppcRank (cat_order : List PValue) (v : PValue) : Nat :=
  cat_order.findIdx (fun c => decide (c = v))

/-- Order used to model
`agg.sort_values(by=['PPC Delivery Period','total'], ascending=[True, False])`
on index-decorated rows: category position ascending, then total descending,
ties kept in original position order (pandas multi-key sort_values is a
stable lexsort). -/
def aggSortRel (cat_order : List PValue) (a b : Nat × AggRow) : Prop :=
  ppcRank cat_order a.2.ppc < ppcRank cat_order b.2.ppc
  ∨ (ppcRank cat_order a.2.ppc = ppcRank cat_order b.2.ppc ∧ b.2.total < a.2.total)
  ∨ (ppcRank cat_order a.2.ppc = ppcRank cat_order b.2.ppc ∧ a.2.total = b.2.total ∧ a.1 ≤ b.1)

instance (cat_order : List PValue) : DecidableRel (aggSortRel cat_order) := fun a b => by
  unfold aggSortRel; infer_instance

/-- The ordering stage of `process_query` (src/processing.py line 68). -/
def sortAggRows (cat_order : List PValue) (rows : List AggRow) : List AggRow :=
  (List.insertionSort (aggSortRel cat_order) (rows.enumFrom 0)).map (fun p => p.2)

/-- Worker for `headPerBucket`; `seen` holds the category values of all rows
already scanned. -/
def headPerBucketGo (n : Nat) (seen : List PValue) : List AggRow → List AggRow
  | [] => []
  | r :: rs =>
    if seen.countP (fun v => decide (v = r.ppc)) < n
    then r :: headPerBucketGo n (r.ppc :: seen) rs
    else headPerBucketGo n (r.ppc :: seen) rs

/-- Embedding of the truncation stage of `process_query` (src/processing.py
line 71): `agg.groupby('PPC Delivery Period').head(top_n)` keeps, in row
order, each row that is among the first `top_n` rows of its category value. -/
def headPerBucket (n : Nat) (rows : List AggRow) : List AggRow := headPerBucketGo n [] rows

/-- Numeric value of a metric cell (`NaN` sums as 0; the metric column is
numeric in scope). -/
def pvToInt : PValue → Int
  | .i v => v
  | _ => 0

/-- Embedding of `process_query` (src/processing.py lines 44-73):
attribute-presence check (exact membership in `df.columns`, raising
`ValueError`), filter by `order_type_classified` (raising `KeyError` when
that column is absent), `groupby(attributes + ['PPC Delivery Period'])[metric]`
(raising `KeyError` for a missing group or metric column; rows with null
group keys are dropped, group keys ascending), `.sum()` renamed `total`,
`order_ppc_delivery_period`, the categorical sort, and the optional per-bucket
`head(top_n)`. -/
def pq_agg (df : DF) (order_type : String) (metric : String)
    (attributes : List String) : List AggRow :=
  let filtered := df.rows.filter
    (fun row => decide (rowGet df.cols row "order_type_classified" = PValue.s order_type))
  let keyOf := fun row => (attributes.map (rowGet df.cols row), rowGet df.cols row "PPC Delivery Period")
  let kept := filtered.filter (fun row =>
    (keyOf row).1.all (fun v => decide (v ≠ PValue.none_)) && decide ((keyOf row).2 ≠ PValue.none_))
  let keys := uniqueFirst (kept.map keyOf)
  let keysSorted := List.insertionSort
    (fun k1 k2 => pvalListLE (k1.1 ++ [k1.2]) (k2.1 ++ [k2.2]) = true) keys
  keysSorted.map (fun k =>
    { attrs := k.1, ppc := k.2,
      total := (kept.filter (fun row => decide (keyOf row = k))).foldl
        (fun acc row => acc + pvToInt (rowGet df.cols row metric)) 0 })

def process_query (df : DF) (order_type : String) (metric : String)
    (attributes : List String) (top_n : Option Nat) : Except PyErr (List AggRow) :=
  let missing := attributes.filter (fun a => !(decide (a ∈ df.cols)))
  if missing ≠ [] then .error (.valueError "Missing attributes in data")
  else if "order_type_classified" ∉ df.cols then .error (.keyError "order_type_classified")
  else if "PPC Delivery Period" ∉ df.cols then .error (.keyError "PPC Delivery Period")
  else if metric ∉ df.cols then .error (.keyError metric)
  else
    match order_ppc_delivery_period
        ((pq_agg df order_type metric attributes).map (fun r => r.ppc)) with
    | .error e => .error e
    | .ok cat_order =>
      let sortedAgg := sortAggRows cat_order (pq_agg df order_type metric attributes)
      match top_n with
      | some n => .ok (headPerBucket n sortedAgg)
      | none => .ok sortedAgg

/-! ## Header Locator — `detect_header_row` (src/app.py lines 62-101) -/

/-- Column classification of `detect_header_row` (src/app.py line 79):
`str(c).startswith('Unnamed:')`, the synthetic pandas placeholder names. -/
def colIsUnnamed (c : String) : Bool := pyStarts "Unnamed:" c

/-- Column classification of `detect_header_row` (src/app.py line 80):
`str(c).replace('.', '').replace('-', '').isdigit()`. -/
def colIsNumeric (c : String) : Bool := pyIsDigit (pyDropDotDash c)

/-- Column classification of `detect_header_row` (src/app.py line 81):
`not str(c).strip()`. -/
def colIsEmpty (c : String) : Bool := decide (pyStrip c = "")

/-- Acceptance test of `detect_header_row` (src/app.py lines 84-89):
`text_count > len*0.5 and (unnamed+numeric) < len*0.3 and len > 3` where
`text_count = len - unnamed - numeric - empty`. The float thresholds are
modelled exactly: `0.5` is exact in binary, and for every column count `n`
in range the IEEE value of `n*0.3` compares with an integer exactly as the
rational `3n/10` does. -/
def isGoodHeader (cols : List String) : Bool :=
  let n := cols.length
  let unnamed := cols.countP colIsUnnamed
  let numeric := cols.countP colIsNumeric
  let empty := cols.countP colIsEmpty
  let text : Int := (n : Int) - unnamed - numeric - empty
  decide (2 * text > (n : Int)) && decide (10 * ((unnamed : Int) + numeric) < 3 * (n : Int))
    && decide (3 < n)

/-- Scan worker of `detect_header_row`: candidate `skip` yields either the
preview's column list or `none` when the `pd.read_csv` / `pd.read_excel` call
raised (the `except Exception: continue`). -/
def detectScan (previews : Nat → Option (List String)) : List Nat → Nat × Option (List String)
  | [] => (0, none)
  | k :: ks =>
    match previews k with
    | none => detectScan previews ks
    | some cols => if isGoodHeader cols then (k, some cols) else detectScan previews ks

/-- Embedding of `detect_header_row` (src/app.py lines 62-101) with the
default `max_rows_to_check=5`: `for skip in range(5)`, return the first
accepted `(skip, cols)`, else `(0, None)`. The raw bytes and file name are
abstracted into the `previews` function (any input bytes and file kind induce
one; a parse failure at offset `k` is `previews k = none`). -/
def detect_header_row (previews : Nat → Option (List String)) : Nat × Option (List String) :=
  detectScan previews [0, 1, 2, 3, 4]

/-! ## Column Normalizer — `query_data` (src/app.py lines 382-394) -/

/-- Embedding of the column normalizer of `query_data` (src/app.py lines
382-394): `norm = {c.strip().lower(): c for c in cols}` then look up
`requested.strip().lower()`; `none` is the `ColumnNotFound` outcome. A later
duplicate fold-key overwrites an earlier one in the dict comprehension,
hence the reversed search. -/
def resolveColumn (cols : List String) (requested : String) : Option String :=
  cols.reverse.find? (fun c => decide (pyLower (pyStrip c) = pyLower (pyStrip requested)))

/-! ## Date Resolver — the parse cascade of `query_data` (src/app.py lines 397-422) -/

/-- Separator of a raw date text. -/
inductive DSep where
  | slash
  | dash
deriving DecidableEq

/-- A cell of the date column. `raw sep a b c` stands for the source text
`"a<sep>b<sep>c"` (three numeric fields); `junk` is unparseable free text;
`parsed` is a datetime64 value; `null` is NaN/NaT. -/
inductive DateCell where
  | raw (sep : DSep) (a b c : Nat)
  | junk
  | parsed (y m d : Nat)
  | null
deriving DecidableEq

def isLeapYear (y : Nat) : Bool := (y % 4 = 0 && y % 100 ≠ 0) || y % 400 = 0

def daysInMonth (y m : Nat) : Nat :=
  if m = 2 then (if isLeapYear y then 29 else 28)
  else if m = 4 || m = 6 || m = 9 || m = 11 then 30 else 31

def validYMD (y m d : Nat) : Bool :=
  decide (1 ≤ m) && decide (m ≤ 12) && decide (1 ≤ d) && decide (d ≤ daysInMonth y m)

/-- The explicit `strptime` formats used by the pipeline, plus `%m-%d-%Y`,
which pandas format guessing can produce. -/
inductive PdFmt where
  | DMYslash
  | MDYslash
  | YMDdash
  | DMYdash
  | YMDslash
  | MDYdash
deriving DecidableEq

/-- Modelled from CPython/pandas strptime-style exact parsing of one cell
with a fixed format; a non-matching cell becomes null (`errors='coerce'`). -/
def strptimeCell (fmt : PdFmt) : DateCell → DateCell
  | .raw sep a b c =>
    match fmt, sep with
    | .DMYslash, .slash => if validYMD c b a then .parsed c b a else .null
    | .MDYslash, .slash => if validYMD c a b then .parsed c a b else .null
    | .YMDdash, .dash => if validYMD a b c then .parsed a b c else .null
    | .DMYdash, .dash => if validYMD c b a then .parsed c b a else .null
    | .YMDslash, .slash => if validYMD a b c then .parsed a b c else .null
    | .MDYdash, .dash => if validYMD c a b then .parsed c a b else .null
    | _, _ => .null
  | .parsed y m d => .parsed y m d
  | .junk => .null
  | .null => .null

/-- Modelled from dateutil: flexible per-value parse. A leading 4-digit field
is year-first; otherwise the first two fields are month/day (day/month when
`dayfirst`), swapping when the preferred reading is impossible; unparseable
values become null under `errors='coerce'`. -/
def dateutilParse (dayfirst : Bool) : DateCell → DateCell
  | .raw _ a b c =>
    if 1000 ≤ a then (if validYMD a b c then .parsed a b c else .null)
    else
      let mdFirst : Nat × Nat := if dayfirst then (b, a) else (a, b)
      let mdSecond : Nat × Nat := if dayfirst then (a, b) else (b, a)
      if validYMD c mdFirst.1 mdFirst.2 then .parsed c mdFirst.1 mdFirst.2
      else if validYMD c mdSecond.1 mdSecond.2 then .parsed c mdSecond.1 mdSecond.2
      else .null
  | .junk => .null
  | .parsed y m d => .parsed y m d
  | .null => .null

/-- Modelled from pandas `guess_datetime_format` on the first non-null value
(without `dayfirst`): year-first for a 4-digit first field, else month-first
when the first field can be a month, else day-first; `none` when no format
can be guessed (whereupon pandas falls back to flexible per-value parsing). -/
def guessFormat : DateCell → Option PdFmt
  | .raw .slash a _ _ =>
    if 1000 ≤ a then some .YMDslash
    else if 1 ≤ a && a ≤ 12 then some .MDYslash
    else if 1 ≤ a && a ≤ 31 then some .DMYslash
    else none
  | .raw .dash a _ _ =>
    if 1000 ≤ a then some .YMDdash
    else if 1 ≤ a && a ≤ 12 then some .MDYdash
    else if 1 ≤ a && a ≤ 31 then some .DMYdash
    else none
  | _ => none

/-- A pandas Series: its dtype (datetime64 or not) and its cells. After any
`to_datetime(..., errors='coerce')` the dtype is datetime64, so re-running
`to_datetime` on the result is the identity. -/
structure PdSeries where
  isDatetime : Bool
  cells : List DateCell
deriving DecidableEq

def nullCount (s : PdSeries) : Nat := s.cells.countP (fun c => decide (c = DateCell.null))

/-- Modelled from pandas:
`pd.to_datetime(col, infer_datetime_format=True, errors='coerce')` — identity
on a datetime64 column; otherwise a format is guessed from the first non-null
value and applied strictly (non-matching values coerce to NaT), falling back
to flexible parsing when nothing could be guessed. -/
def to_datetime_infer (s : PdSeries) : PdSeries :=
  if s.isDatetime then s
  else
    match s.cells.find? (fun c => decide (c ≠ DateCell.null)) with
    | none => ⟨true, s.cells.map (fun _ => DateCell.null)⟩
    | some v =>
      match guessFormat v with
      | some fmt => ⟨true, s.cells.map (strptimeCell fmt)⟩
      | none => ⟨true, s.cells.map (dateutilParse false)⟩

/-- Modelled from pandas: `pd.to_datetime(col, dayfirst=True, errors='coerce')`
— identity on a datetime64 column, flexible day-first parse otherwise. -/
def to_datetime_dayfirst (s : PdSeries) : PdSeries :=
  if s.isDatetime then s else ⟨true, s.cells.map (dateutilParse true)⟩

/-- Modelled from pandas: `pd.to_datetime(col, format=fmt, errors='coerce')`
— identity on a datetime64 column, strict format parse otherwise. -/
def to_datetime_format (fmt : PdFmt) (s : PdSeries) : PdSeries :=
  if s.isDatetime then s else ⟨true, s.cells.map (strptimeCell fmt)⟩

/-- The five explicit formats of src/app.py line 408:
`['%d/%m/%Y', '%m/%d/%Y', '%Y-%m-%d', '%d-%m-%Y', '%Y/%m/%d']`. -/
def queryFormats : List PdFmt := [.DMYslash, .MDYslash, .YMDdash, .DMYdash, .YMDslash]

/-- The explicit-format loop of `query_data` (src/app.py lines 407-414): each
format is applied to the current column — the previous attempt's output, the
dataframe column being overwritten in place — breaking when fewer than half
the values are null. -/
def tryFormatsLoop : List PdFmt → PdSeries → PdSeries
  | [], s => s
  | fmt :: fmts, s =>
    let s2 := to_datetime_format fmt s
    if 2 * nullCount s2 < s2.cells.length then s2 else tryFormatsLoop fmts s2

/-- Embedding of the date-parse cascade of `query_data` (src/app.py lines
397-422): strategy (a) `infer_datetime_format`; then, whenever more than half
the values are null, strategy (b) `dayfirst=True` and strategy (c) the
explicit-format loop — each later strategy applied to the overwritten column
— and the final more-than-50%-invalid check producing the HTTP 400 error. -/
def query_parse_dates (col : PdSeries) : Except PyErr PdSeries :=
  let s1 := to_datetime_infer col
  let s2 := if 2 * nullCount s1 > s1.cells.length then to_datetime_dayfirst s1 else s1
  let s3 := if 2 * nullCount s2 > s2.cells.length then tryFormatsLoop queryFormats s2 else s2
  if 2 * nullCount s3 > s3.cells.length then .error (.valueError "Could not parse date column")
  else .ok s3

/-- Modelled from the spec: the Date Resolver cascade as the spec describes
it — the same strategies in the same order, but every attempt applied
independently to the original unparsed column, accepting the first strategy
whose non-null fraction is at least 50%; `none` when no strategy reaches the
threshold. Stated only to compare the spec's description against
`query_parse_dates`. -/
def spec_resolve_dates_go : List (PdSeries → PdSeries) → PdSeries → Option PdSeries
  | [], _ => none
  | f :: fs, col =>
    let r := f col
    if 2 * nullCount r ≤ r.cells.length then some r else spec_resolve_dates_go fs col

def spec_resolve_dates (col : PdSeries) : Option PdSeries :=
  spec_resolve_dates_go
    ([to_datetime_infer, to_datetime_dayfirst] ++ queryFormats.map to_datetime_format) col

/-! ## Fiscal Window Calculator — `query_data` (src/app.py lines 430-438) -/

/-- Embedding of the quarter-start computation of `query_data` (src/app.py
lines 430-435): Q4 of the previous year for Jan-Mar, else quarter
`q = (month - 1) // 3` of the current year, start month `q*3 - 2`. -/
def last_quarter_start (ty tm : Nat) : Nat × Nat :=
  if tm ≤ 3 then (ty - 1, 10) else (ty, ((tm - 1) / 3) * 3 - 2)

/-- Modelled from pandas (external library): the quarterly period
`pd.Period(f"{year}-{month}").asfreq('Q')`. -/
structure PdQPeriod where
  year : Nat
  quarter : Nat
deriving DecidableEq

def pdPeriodMonthToQ (y m : Nat) : PdQPeriod := ⟨y, (m - 1) / 3 + 1⟩

/-- Modelled from pandas (external library): attribute access on a quarterly
`pandas.Period`, yielding the `.day` of the requested timestamp-valued
attribute. `pandas.Period` exposes `start_time` and `end_time` (besides its
scalar attributes), but it has no attribute `month_end`, so that lookup
raises `AttributeError`. -/
def pdQPeriodAttrDay (p : PdQPeriod) (attr : String) : Except PyErr Nat :=
  if attr = "start_time" then .ok 1
  else if attr = "end_time" then .ok (daysInMonth p.year (3 * p.quarter))
  else .error (.attributeError attr)

/-- Embedding of the fiscal-window computation of `query_data` (src/app.py
lines 430-438): start `last_quarter_start`, end month `start.month + 2`, end
day `pd.Period(f"{y}-{m}").asfreq('Q').month_end.day`. -/
def last_quarter_window (ty tm : Nat) :
    Except PyErr ((Nat × Nat × Nat) × (Nat × Nat × Nat)) :=
  let st := last_quarter_start ty tm
  let endMonth := st.2 + 2
  match pdQPeriodAttrDay (pdPeriodMonthToQ st.1 st.2) "month_end" with
  | .error e => .error e
  | .ok d => .ok ((st.1, st.2, 1), (st.1, endMonth, d))

/-- Calendar predecessor of a (year, month, day) date. -/
def prevDay (y m d : Nat) : Nat × Nat × Nat :=
  if 1 < d then (y, m, d - 1)
  else if 1 < m then (y, m - 1, daysInMonth y (m - 1))
  else (y - 1, 12, 31)

/-- Modelled from the spec (section 4.4): the most recently completed
calendar-aligned quarter relative to the reference month, its end computed
as the first day of the following month minus one day. -/
def spec_last_completed_quarter (ty tm : Nat) : (Nat × Nat × Nat) × (Nat × Nat × Nat) :=
  let p : Nat × Nat := if tm ≤ 3 then (ty - 1, 4) else (ty, (tm + 2) / 3 - 1)
  let sm := 3 * p.2 - 2
  let em := 3 * p.2
  let nxt : Nat × Nat × Nat := if em = 12 then (p.1 + 1, 1, 1) else (p.1, em + 1, 1)
  ((p.1, sm, 1), prevDay nxt.1 nxt.2.1 nxt.2.2)

/-! ## Query tail — filtering, grouping and diagnostics of `query_data`
(src/app.py lines 424-461) -/

/-- Lexicographic comparison of (year, month, day) triples, modelling
comparison of `datetime.date` values. -/
def dateTripleLE (a b : Nat × Nat × Nat) : Bool :=
  decide (a.1 < b.1)
    || (decide (a.1 = b.1)
        && (decide (a.2.1 < b.2.1) || (decide (a.2.1 = b.2.1) && decide (a.2.2 ≤ b.2.2))))

def cellYMD : DateCell → Nat × Nat × Nat
  | .parsed y m d => (y, m, d)
  | _ => (0, 0, 0)

/-- The JSON response of `query_data`: the `groupby(group_by).size()` mapping
and the metadata block (window bounds, record counts). -/
structure QueryTailResult where
  data : List (String × Nat)
  quarterStart : Nat × Nat × Nat
  quarterEnd : Nat × Nat × Nat
  totalRecords : Nat
  totalRecordsBeforeFilter : Nat
deriving DecidableEq

/-- Embedding of the tail of `query_data` (src/app.py lines 397-461) after
column resolution: parse the date column, drop rows with null dates, reject
when none remain, compute the fiscal window, filter to it (both bounds
inclusive), and report `groupby(group_by).size()` (keys ascending) together
with the metadata record counts. -/
def query_tail (dateCells : List DateCell) (groupCells : List String) (ty tm : Nat) :
    Except PyErr QueryTailResult :=
  match query_parse_dates ⟨false, dateCells⟩ with
  | .error e => .error e
  | .ok parsedCol =>
    let rows := (parsedCol.cells.zip groupCells).filter (fun rc => decide (rc.1 ≠ DateCell.null))
    if rows.length = 0 then
      .error (.valueError "No valid dates found in the date column after parsing")
    else
      match last_quarter_window ty tm with
      | .error e => .error e
      | .ok w =>
        let inWin := rows.filter
          (fun rc => dateTripleLE w.1 (cellYMD rc.1) && dateTripleLE (cellYMD rc.1) w.2)
        let keys := List.insertionSort (fun a b => a ≤ b) (uniqueFirst (inWin.map (fun rc => rc.2)))
        .ok ⟨keys.map (fun k => (k, inWin.countP (fun rc => decide (rc.2 = k)))),
             w.1, w.2, inWin.length, rows.length⟩

/-- Modelled from the spec: the same query tail with the spec's fiscal-window
rule in place of the failing `month_end` lookup, exhibiting the intended
empty-window success result with its diagnostics. -/
def spec_query_tail (dateCells : List DateCell) (groupCells : List String) (ty tm : Nat) :
    Except PyErr QueryTailResult :=
  match query_parse_dates ⟨false, dateCells⟩ with
  | .error e => .error e
  | .ok parsedCol =>
    let rows := (parsedCol.cells.zip groupCells).filter (fun rc => decide (rc.1 ≠ DateCell.null))
    if rows.length = 0 then
      .error (.valueError "No valid dates found in the date column after parsing")
    else
      let w := spec_last_completed_quarter ty tm
      let inWin := rows.filter
        (fun rc => dateTripleLE w.1 (cellYMD rc.1) && dateTripleLE (cellYMD rc.1) w.2)
      let keys := List.insertionSort (fun a b => a ≤ b) (uniqueFirst (inWin.map (fun rc => rc.2)))
      .ok ⟨keys.map (fun k => (k, inWin.countP (fun rc => decide (rc.2 = k)))),
           w.1, w.2, inWin.length, rows.length⟩

/-! ## Statement helpers and concrete inputs used by the verification -/

/-- Whether the `order_ppc_delivery_period` sort key computes without raising
for a label (true exactly when a string label has at least one
whitespace-delimited token; always true for non-string labels). -/
def ppcKeyOk (v : PValue) : Bool :=
  match ppcSortKey v with
  | .ok _ => true
  | .error _ => false

/-- A header-preview function: offset 0 shows a noisy first row, offset 1 the
genuine header. -/
def previewsEx : Nat → Option (List String) := fun k =>
  if k = 1 then some ["Item", "Qty", "Price", "Total"]
  else some ["Unnamed: 0", "1", "2", "3"]

/-- The date column of claim C2's failing input: source texts
`["01/02/2025", "13/05/2025", "14/05/2025", "15/05/2025"]`. -/
def cellsC2 : List DateCell :=
  [.raw .slash 1 2 2025, .raw .slash 13 5 2025, .raw .slash 14 5 2025, .raw .slash 15 5 2025]

/-- A single category bucket with two groups, used to witness claim C4. -/
def c4rows : List AggRow :=
  [⟨[], PValue.s "Overdue", 5⟩, ⟨[], PValue.s "Overdue", 9⟩]

/-- Observed labels used to witness claims C5/C6/C7. -/
def labelsC5 : List PValue :=
  [PValue.s "Due", PValue.s "5 Weeks", PValue.s "Overdue", PValue.s "2 Weeks"]

def labelsC6 : List PValue := [PValue.s "3 Weeks", PValue.s "Overdue"]

def labelsC7 : List PValue :=
  [PValue.s "1 Week", PValue.i 7, PValue.s "Banana", PValue.s "4 Weeks"]

/-- A table whose columns include `KT`, used for claim C8: the requested
attribute `"kt"` resolves under the Normalizer but is not an exact column. -/
def dfC8 : DF := ⟨["KT", "order_type_classified", "PPC Delivery Period", "qty"], []⟩

/-- A table without the `order_type_classified` column, used to witness the
error precedence of claim C8. -/
def dfC8b : DF := ⟨["KT", "PPC Delivery Period", "qty"], []⟩

/-- The date column of claim C9's input: one parseable date far outside the
fiscal window. -/
def cellsC9 : List DateCell := [.raw .slash 1 1 2020]

instance : IsTotal (Nat × (PValue × Int)) ppcKeyedRel :=
  ⟨by intro a b; unfold ppcKeyedRel; omega⟩

instance : IsTrans (Nat × (PValue × Int)) ppcKeyedRel :=
  ⟨by intro a b c h1 h2; unfold ppcKeyedRel at h1 h2 ⊢; omega⟩

instance (cat_order : List PValue) : IsTotal (Nat × AggRow) (aggSortRel cat_order) :=
  ⟨by intro a b; unfold aggSortRel; omega⟩

instance (cat_order : List PValue) : IsTrans (Nat × AggRow) (aggSortRel cat_order) :=
  ⟨by intro a b c h1 h2; unfold aggSortRel at h1 h2 ⊢; omega⟩

/-! # Theorems -/

/-! ## General list lemmas -/

theorem mem_uniqueFirstGo [DecidableEq α] {a : α} :
    ∀ {l seen : List α}, a ∈ uniqueFirstGo seen l ↔ a ∈ l ∧ a ∉ seen := by
  intro l
  induction l with
  | nil => intro seen; simp [uniqueFirstGo]
  | cons x xs ih =>
    intro seen
    by_cases hx : x ∈ seen
    · simp only [uniqueFirstGo, if_pos hx, ih, List.mem_cons]
      constructor
      · rintro ⟨h1, h2⟩; exact ⟨Or.inr h1, h2⟩
      · rintro ⟨h1 | h1, h2⟩
        · exact absurd (h1 ▸ hx) h2
        · exact ⟨h1, h2⟩
    · simp only [uniqueFirstGo, if_neg hx, List.mem_cons, ih]
      by_cases ha : a = x
      · subst ha; simp [hx]
      · simp [ha]

theorem mem_uniqueFirst [DecidableEq α] {a : α} {l : List α} :
    a ∈ uniqueFirst l ↔ a ∈ l := by
  simp [uniqueFirst, mem_uniqueFirstGo]

theorem nodup_uniqueFirstGo [DecidableEq α] :
    ∀ (l seen : List α), (uniqueFirstGo seen l).Nodup := by
  intro l
  induction l with
  | nil => intro seen; simp [uniqueFirstGo]
  | cons x xs ih =>
    intro seen
    by_cases hx : x ∈ seen
    · simpa [uniqueFirstGo, if_pos hx] using ih seen
    · rw [uniqueFirstGo, if_neg hx, List.nodup_cons]
      refine ⟨fun hmem => ?_, ih (x :: seen)⟩
      exact (mem_uniqueFirstGo.mp hmem).2 (List.mem_cons_self x seen)

theorem nodup_uniqueFirst [DecidableEq α] (l : List α) : (uniqueFirst l).Nodup :=
  nodup_uniqueFirstGo l []

theorem pairwise_lt_enumFrom {α : Type _} :
    ∀ (l : List α) (n : Nat), (l.enumFrom n).Pairwise (fun a b => a.1 < b.1) := by
  intro l
  induction l with
  | nil => intro n; simp
  | cons x xs ih =>
    intro n
    rw [List.enumFrom_cons, List.pairwise_cons]
    refine ⟨fun p hp => ?_, ih (n + 1)⟩
    exact Nat.lt_of_lt_of_le (Nat.lt_succ_self n) (List.mem_enumFrom hp).1

theorem filter_split_of_pairwise {α : Type _} {p : α → Bool} :
    ∀ {l : List α}, l.Pairwise (fun a b => p b = true → p a = true) →
      l = l.filter p ++ l.filter (fun x => !p x) := by
  intro l
  induction l with
  | nil => intro _; simp
  | cons x xs ih =>
    intro h
    rw [List.pairwise_cons] at h
    by_cases hpx : p x = true
    · rw [List.filter_cons_of_pos hpx, List.filter_cons_of_neg (by simp [hpx]),
          List.cons_append]
      exact congrArg (x :: ·) (ih h.2)
    · have hall : ∀ b ∈ xs, ¬ p b = true := fun b hb hpb => hpx (h.1 b hb hpb)
      rw [List.filter_cons_of_neg (by simpa using hpx),
          List.filter_cons_of_pos (by simp [hpx]),
          List.filter_eq_nil_iff.mpr hall, List.nil_append,
          List.filter_eq_self.mpr (fun b hb => by simpa using hall b hb)]

theorem countP_eq_one_of_nodup_mem {α : Type _} [DecidableEq α] :
    ∀ {l : List α}, l.Nodup → ∀ {a : α}, a ∈ l →
      l.countP (fun x => decide (x = a)) = 1 := by
  intro l
  induction l with
  | nil => intro _ a ha; simp at ha
  | cons x xs ih =>
    intro hn a ha
    rw [List.nodup_cons] at hn
    rw [List.countP_cons]
    rcases List.mem_cons.mp ha with rfl | ha2
    · rw [List.countP_eq_zero.mpr (fun b hb => by simp; rintro rfl; exact hn.1 hb)]
      simp
    · have hxa : x ≠ a := fun hxa => hn.1 (hxa ▸ ha2)
      rw [ih hn.2 ha2]
      simp [hxa]

/-! ## Category Sequencer lemmas -/

theorem ppcKeyOk_iff {v : PValue} : ppcKeyOk v = true ↔ ppcSortKey v = .ok (keyTotal v) := by
  cases h : ppcSortKey v with
  | error e => simp [ppcKeyOk, keyTotal, h]
  | ok k => simp [ppcKeyOk, keyTotal, h]

theorem ppcSortKey_error_eq {v : PValue} {e : PyErr} (h : ppcSortKey v = .error e) :
    e = PyErr.indexError := by
  cases v with
  | s t =>
    cases ht : pyTokens t with
    | nil => simp [ppcSortKey, ht] at h; exact h.symm
    | cons a as_ => simp [ppcSortKey, ht] at h
  | i w => simp [ppcSortKey] at h
  | none_ => simp [ppcSortKey] at h

theorem ppcSortKey_ok_nonneg {v : PValue} {k : Int} (h : ppcSortKey v = .ok k) : 0 ≤ k := by
  cases v with
  | s t =>
    cases ht : pyTokens t with
    | nil => simp [ppcSortKey, ht] at h
    | cons a as_ =>
      simp [ppcSortKey, ht] at h
      cases hd : pyIsDigit a <;> simp [hd] at h <;> omega
  | i w => simp [ppcSortKey] at h; omega
  | none_ => simp [ppcSortKey] at h; omega

theorem keyTotal_nonneg (v : PValue) : 0 ≤ keyTotal v := by
  unfold keyTotal
  cases h : ppcSortKey v with
  | error e => simp
  | ok k => exact ppcSortKey_ok_nonneg h

theorem mapKeysE_error_eq : ∀ {l : List PValue} {e : PyErr},
    mapKeysE l = .error e → e = PyErr.indexError := by
  intro l
  induction l with
  | nil => intro e h; simp [mapKeysE] at h
  | cons v vs ih =>
    intro e h
    cases hk : ppcSortKey v with
    | error e2 =>
      simp only [mapKeysE, hk] at h
      cases h
      exact ppcSortKey_error_eq hk
    | ok k =>
      cases hm : mapKeysE vs with
      | error e3 =>
        simp only [mapKeysE, hk, hm] at h
        cases h
        exact ih hm
      | ok rest =>
        simp only [mapKeysE, hk, hm] at h
        exact Except.noConfusion h

theorem mapKeysE_ok_of_keyOk : ∀ {l : List PValue}, (∀ v ∈ l, ppcKeyOk v = true) →
    mapKeysE l = .ok (l.map (fun v => (v, keyTotal v))) := by
  intro l
  induction l with
  | nil => intro _; simp [mapKeysE]
  | cons v vs ih =>
    intro h
    have hv := ppcKeyOk_iff.mp (h v (List.mem_cons_self v vs))
    have hvs := ih (fun w hw => h w (List.mem_cons_of_mem v hw))
    simp [mapKeysE, hv, hvs]

theorem pyStableSortDesc_perm (keyed : List (PValue × Int)) :
    (pyStableSortDesc keyed).Perm keyed := by
  unfold pyStableSortDesc
  have h1 := (List.perm_insertionSort ppcKeyedRel (keyed.enumFrom 0)).map Prod.snd
  rwa [List.enumFrom_map_snd] at h1

theorem pyStableSortDesc_pairwise (keyed : List (PValue × Int)) :
    (pyStableSortDesc keyed).Pairwise (fun x y => y.2 ≤ x.2) := by
  unfold pyStableSortDesc
  exact List.Pairwise.map _ (fun a b hab => by unfold ppcKeyedRel at hab; omega)
    (List.sorted_insertionSort ppcKeyedRel (keyed.enumFrom 0))

theorem map_snd_filter_snd {β : Type _} (p : β → Bool) :
    ∀ (l : List β) (n : Nat),
      ((l.enumFrom n).filter (fun q => p q.2)).map (fun q => q.2) = l.filter p := by
  intro l
  induction l with
  | nil => intro n; simp
  | cons x xs ih =>
    intro n
    rw [List.enumFrom_cons]
    by_cases hx : p x = true
    · rw [List.filter_cons_of_pos (by simpa using hx), List.map_cons,
          List.filter_cons_of_pos hx, ih]
    · rw [List.filter_cons_of_neg (by simpa using hx), List.filter_cons_of_neg hx, ih]

theorem pyStableSortDesc_filter_key (keyed : List (PValue × Int)) (t : Int) :
    (pyStableSortDesc keyed).filter (fun p => decide (p.2 = t))
      = keyed.filter (fun p => decide (p.2 = t)) := by
  have hperm := List.perm_insertionSort ppcKeyedRel (keyed.enumFrom 0)
  have hSsort := List.sorted_insertionSort ppcKeyedRel (keyed.enumFrom 0)
  have hfperm : ((List.insertionSort ppcKeyedRel (keyed.enumFrom 0)).filter
        (fun q => decide (q.2.2 = t))).Perm
      ((keyed.enumFrom 0).filter (fun q => decide (q.2.2 = t))) := hperm.filter _
  have hEp : ((keyed.enumFrom 0).filter (fun q => decide (q.2.2 = t))).Pairwise
      (fun a b => a.1 < b.1) := (pairwise_lt_enumFrom keyed 0).filter _
  have hSp_le : ((List.insertionSort ppcKeyedRel (keyed.enumFrom 0)).filter
      (fun q => decide (q.2.2 = t))).Pairwise (fun a b => a.1 ≤ b.1) := by
    refine (hSsort.filter (fun q => decide (q.2.2 = t))).imp_of_mem ?_
    intro a b ha hb hab
    have ha2 : a.2.2 = t := by simpa using List.of_mem_filter ha
    have hb2 : b.2.2 = t := by simpa using List.of_mem_filter hb
    unfold ppcKeyedRel at hab
    omega
  have hEnodup : (((keyed.enumFrom 0).filter (fun q => decide (q.2.2 = t))).map
      Prod.fst).Nodup := by
    have h1 : (((keyed.enumFrom 0).filter (fun q => decide (q.2.2 = t))).map
        Prod.fst).Pairwise (· < ·) := List.pairwise_map.mpr hEp
    exact h1.imp Nat.ne_of_lt
  have hSnodup : (((List.insertionSort ppcKeyedRel (keyed.enumFrom 0)).filter
      (fun q => decide (q.2.2 = t))).map Prod.fst).Nodup :=
    ((hfperm.map Prod.fst).nodup_iff).mpr hEnodup
  have hSp_lt : ((List.insertionSort ppcKeyedRel (keyed.enumFrom 0)).filter
      (fun q => decide (q.2.2 = t))).Pairwise (fun a b => a.1 < b.1) := by
    have hne := List.pairwise_map.mp hSnodup
    exact (hSp_le.and hne).imp (fun h => Nat.lt_of_le_of_ne h.1 h.2)
  have heq : (List.insertionSort ppcKeyedRel (keyed.enumFrom 0)).filter
        (fun q => decide (q.2.2 = t))
      = (keyed.enumFrom 0).filter (fun q => decide (q.2.2 = t)) := by
    haveI : IsAntisymm (Nat × (PValue × Int)) (fun a b => a.1 < b.1) :=
      ⟨fun a b h1 h2 => absurd h1 (by omega)⟩
    exact List.eq_of_perm_of_sorted hfperm hSp_lt hEp
  unfold pyStableSortDesc
  calc ((List.insertionSort ppcKeyedRel (keyed.enumFrom 0)).map (fun p => p.2)).filter
        (fun p => decide (p.2 = t))
      = ((List.insertionSort ppcKeyedRel (keyed.enumFrom 0)).filter
          (fun q => decide (q.2.2 = t))).map (fun p => p.2) := by
        rw [List.filter_map]; rfl
    _ = ((keyed.enumFrom 0).filter (fun q => decide (q.2.2 = t))).map (fun p => p.2) := by
        rw [heq]
    _ = keyed.filter (fun p => decide (p.2 = t)) :=
        map_snd_filter_snd (fun p => decide (p.2 = t)) keyed 0

theorem map_fst_pair {α β : Type _} (g : α → β) :
    ∀ l : List α, (l.map (fun v => (v, g v))).map (fun p => p.1) = l := by
  intro l
  induction l with
  | nil => rfl
  | cons x xs ih => simp [ih]

theorem map_fst_filter_snd {α β : Type _} (g : α → β) (q : β → Bool) :
    ∀ l : List α,
      ((l.map (fun v => (v, g v))).filter (fun p => q p.2)).map (fun p => p.1)
        = l.filter (fun v => q (g v)) := by
  intro l
  induction l with
  | nil => rfl
  | cons x xs ih => by_cases hx : q (g x) = true <;> simp [List.filter_cons, hx, ih]

theorem order_ppc_eq_ok {colVals : List PValue} {keyed : List (PValue × Int)}
    (hmk : mapKeysE (remainderPPC colVals) = .ok keyed)
    (hnon : PValue.none_ ∉ ppcFixedLabels ++ (pyStableSortDesc keyed).map (fun p => p.1)) :
    order_ppc_delivery_period colVals
      = .ok (ppcFixedLabels ++ (pyStableSortDesc keyed).map (fun p => p.1)) := by
  unfold order_ppc_delivery_period
  rw [hmk]
  dsimp only
  rw [if_neg hnon]

theorem order_ppc_ok_structure (colVals : List PValue)
    (h1 : ∀ v ∈ colVals, ppcKeyOk v = true) (h2 : PValue.none_ ∉ colVals) :
    ∃ weeks,
      order_ppc_delivery_period colVals = .ok (ppcFixedLabels ++ weeks)
      ∧ weeks.Perm (remainderPPC colVals)
      ∧ weeks.Pairwise (fun a b => keyTotal b ≤ keyTotal a)
      ∧ weeks.filter (fun v => decide (keyTotal v = 0))
          = (remainderPPC colVals).filter (fun v => decide (keyTotal v = 0))
      ∧ weeks = weeks.filter (fun v => decide (1 ≤ keyTotal v))
          ++ weeks.filter (fun v => decide (keyTotal v = 0)) := by
  have hrem : ∀ v ∈ remainderPPC colVals, ppcKeyOk v = true :=
    fun v hv => h1 v (mem_uniqueFirst.mp (List.mem_of_mem_filter hv))
  have hmk : mapKeysE (remainderPPC colVals)
      = .ok ((remainderPPC colVals).map (fun v => (v, keyTotal v))) :=
    mapKeysE_ok_of_keyOk hrem
  set keyed := (remainderPPC colVals).map (fun v => (v, keyTotal v)) with hkeyed
  set weeks := (pyStableSortDesc keyed).map (fun p => p.1) with hweeks
  have hperm0 : (pyStableSortDesc keyed).Perm keyed := pyStableSortDesc_perm keyed
  have hmapfst : keyed.map (fun p : PValue × Int => p.1) = remainderPPC colVals := by
    rw [hkeyed]
    exact map_fst_pair keyTotal (remainderPPC colVals)
  have hpermW : weeks.Perm (remainderPPC colVals) := by
    have h3 := hperm0.map (fun p : PValue × Int => p.1)
    rw [hmapfst] at h3
    exact h3
  have hkey : ∀ p ∈ pyStableSortDesc keyed, p.2 = keyTotal p.1 := by
    intro p hp
    have hp2 : p ∈ keyed := hperm0.mem_iff.mp hp
    rw [hkeyed] at hp2
    obtain ⟨v, hv, rfl⟩ := List.mem_map.mp hp2
    rfl
  have hpw : weeks.Pairwise (fun a b => keyTotal b ≤ keyTotal a) := by
    have hp3 : (pyStableSortDesc keyed).Pairwise (fun x y => keyTotal y.1 ≤ keyTotal x.1) :=
      (pyStableSortDesc_pairwise keyed).imp_of_mem
        (fun ha hb hab => by rwa [← hkey _ ha, ← hkey _ hb])
    exact List.pairwise_map.mpr hp3
  have hz : weeks.filter (fun v => decide (keyTotal v = 0))
      = (remainderPPC colVals).filter (fun v => decide (keyTotal v = 0)) := by
    rw [hweeks, List.filter_map]
    have hcongr : (pyStableSortDesc keyed).filter
          ((fun v => decide (keyTotal v = 0)) ∘ (fun p : PValue × Int => p.1))
        = (pyStableSortDesc keyed).filter (fun p => decide (p.2 = 0)) :=
      List.filter_congr (fun p hp => by simp [Function.comp, hkey p hp])
    rw [hcongr, pyStableSortDesc_filter_key keyed 0, hkeyed]
    exact map_fst_filter_snd keyTotal (fun k => decide (k = 0)) (remainderPPC colVals)
  have hsplit : weeks = weeks.filter (fun v => decide (1 ≤ keyTotal v))
      ++ weeks.filter (fun v => decide (keyTotal v = 0)) := by
    have hpair : weeks.Pairwise (fun a b =>
        (fun v => decide (1 ≤ keyTotal v)) b = true → (fun v => decide (1 ≤ keyTotal v)) a = true) :=
      hpw.imp (fun hab => by
        simp only [decide_eq_true_eq]
        intro hb
        omega)
    have hstep := filter_split_of_pairwise hpair
    have hnot : weeks.filter (fun x => !(fun v => decide (1 ≤ keyTotal v)) x)
        = weeks.filter (fun v => decide (keyTotal v = 0)) := by
      refine List.filter_congr (fun x _ => ?_)
      have := keyTotal_nonneg x
      by_cases hx : keyTotal x = 0
      · simp [hx]
      · have h1x : 1 ≤ keyTotal x := by omega
        simp [hx, h1x]
    rw [hnot] at hstep
    exact hstep
  have hnonin : PValue.none_ ∉ ppcFixedLabels ++ weeks := by
    intro hmem
    rcases List.mem_append.mp hmem with hf | hw
    · simp [ppcFixedLabels] at hf
    · exact h2 (mem_uniqueFirst.mp (List.mem_of_mem_filter (hpermW.mem_iff.mp hw)))
  exact ⟨weeks, order_ppc_eq_ok hmk (hweeks ▸ hnonin), hpermW, hpw, hz, hsplit⟩

/-! ## Claims C5, C6, C7 — Category Sequencer -/

/-- C5: the Category Sequencer, given observed labels
`{"Due","5 Weeks","Overdue","2 Weeks"}` with fixed prefix `["Overdue","Due"]`,
produces exactly `["Overdue","Due","5 Weeks","2 Weeks"]`; in general (whenever
the sort key computes, cf. C7) the fixed-prefix entries come first in their
canonical order and the remaining observed labels follow sorted descending by
their leading integer token. -/
theorem claim_C5_category_sequencer :
    order_ppc_delivery_period labelsC5
      = .ok [PValue.s "Overdue", PValue.s "Due", PValue.s "5 Weeks", PValue.s "2 Weeks"]
    ∧ ∀ colVals : List PValue, (∀ v ∈ colVals, ppcKeyOk v = true) →
        PValue.none_ ∉ colVals →
        ∃ weeks, order_ppc_delivery_period colVals = .ok (ppcFixedLabels ++ weeks)
          ∧ weeks.Perm (remainderPPC colVals)
          ∧ weeks.Pairwise (fun a b => keyTotal b ≤ keyTotal a) := by
  refine ⟨by decide, fun colVals h1 h2 => ?_⟩
  obtain ⟨w, ha, hb, hc, _, _⟩ := order_ppc_ok_structure colVals h1 h2
  exact ⟨w, ha, hb, hc⟩

/-- Witness for C5: the general part applied to the concrete label list of the
claim. -/
theorem claim_C5_witness :
    ((∀ v ∈ labelsC5, ppcKeyOk v = true) ∧ PValue.none_ ∉ labelsC5)
    ∧ ∃ weeks, order_ppc_delivery_period labelsC5 = .ok (ppcFixedLabels ++ weeks)
        ∧ weeks.Perm (remainderPPC labelsC5)
        ∧ weeks.Pairwise (fun a b => keyTotal b ≤ keyTotal a) :=
  ⟨⟨by decide, by decide⟩, claim_C5_category_sequencer.2 labelsC5 (by decide) (by decide)⟩

/-- Counterexample to C6: with observed labels `["3 Weeks"]` the built
category order contains `"Overdue"` and `"Due"`, labels absent from the data
— the code hardcodes `['Overdue','Due'] + weeks` unconditionally. -/
theorem claim_C6_counterexample :
    order_ppc_delivery_period [PValue.s "3 Weeks"]
      = .ok [PValue.s "Overdue", PValue.s "Due", PValue.s "3 Weeks"]
    ∧ PValue.s "Overdue" ∉ [PValue.s "3 Weeks"]
    ∧ PValue.s "Due" ∉ [PValue.s "3 Weeks"] :=
  ⟨by decide, by decide, by decide⟩

/-- C6 (amended): the category order contains every observed label exactly
once, and contains no label absent from the data other than the fixed-prefix
entries "Overdue" and "Due", which are always present whether or not the data
contains them. -/
theorem claim_C6_category_order_membership :
    ∀ colVals : List PValue, (∀ v ∈ colVals, ppcKeyOk v = true) →
      PValue.none_ ∉ colVals →
      ∀ out, order_ppc_delivery_period colVals = .ok out →
        (∀ v ∈ colVals, out.countP (fun x => decide (x = v)) = 1)
        ∧ (∀ v ∈ out, v ∉ colVals → v = PValue.s "Overdue" ∨ v = PValue.s "Due")
        ∧ PValue.s "Overdue" ∈ out ∧ PValue.s "Due" ∈ out := by
  intro colVals h1 h2 out hout
  obtain ⟨w, ha, hb, _, _, _⟩ := order_ppc_ok_structure colVals h1 h2
  rw [ha] at hout
  injection hout with hout
  subst hout
  have hnodupRem : (remainderPPC colVals).Nodup := (nodup_uniqueFirst colVals).filter _
  have hremNe : ∀ a ∈ remainderPPC colVals,
      a ≠ PValue.s "Overdue" ∧ a ≠ PValue.s "Due" := by
    intro a ha2
    have := List.of_mem_filter ha2
    simpa using this
  refine ⟨?_, ?_, ?_, ?_⟩
  · intro v hv
    rw [List.countP_append]
    by_cases hOv : v = PValue.s "Overdue"
    · subst hOv
      have hwz : w.countP (fun x => decide (x = PValue.s "Overdue")) = 0 :=
        List.countP_eq_zero.mpr (fun a haw => by
          simp only [decide_eq_true_eq]
          exact (hremNe a ((hb.mem_iff).mp haw)).1)
      have hfx : ppcFixedLabels.countP (fun x => decide (x = PValue.s "Overdue")) = 1 := by
        decide
      omega
    · by_cases hDue : v = PValue.s "Due"
      · subst hDue
        have hwz : w.countP (fun x => decide (x = PValue.s "Due")) = 0 :=
          List.countP_eq_zero.mpr (fun a haw => by
            simp only [decide_eq_true_eq]
            exact (hremNe a ((hb.mem_iff).mp haw)).2)
        have hfx : ppcFixedLabels.countP (fun x => decide (x = PValue.s "Due")) = 1 := by
          decide
        omega
      · have hvr : v ∈ remainderPPC colVals :=
          List.mem_filter.mpr ⟨mem_uniqueFirst.mpr hv, by simp [hOv, hDue]⟩
        rw [hb.countP_eq, countP_eq_one_of_nodup_mem hnodupRem hvr]
        have hfix : (ppcFixedLabels.countP (fun x => decide (x = v))) = 0 := by
          rw [List.countP_eq_zero]
          intro a hafix
          simp only [decide_eq_true_eq]
          intro heq
          rcases (by simpa [ppcFixedLabels] using hafix : a = PValue.s "Overdue" ∨ a = PValue.s "Due") with h | h
          · exact hOv (heq ▸ h ▸ rfl)
          · exact hDue (heq ▸ h ▸ rfl)
        omega
  · intro v hv hnotin
    rcases List.mem_append.mp hv with hf | hw
    · simpa [ppcFixedLabels] using hf
    · exact absurd (mem_uniqueFirst.mp (List.mem_of_mem_filter ((hb.mem_iff).mp hw))) hnotin
  · exact List.mem_append.mpr (Or.inl (by simp [ppcFixedLabels]))
  · exact List.mem_append.mpr (Or.inl (by simp [ppcFixedLabels]))

/-- Witness for C6 (amended), at observed labels `["3 Weeks", "Overdue"]`. -/
theorem claim_C6_witness :
    ((∀ v ∈ labelsC6, ppcKeyOk v = true) ∧ PValue.none_ ∉ labelsC6
      ∧ order_ppc_delivery_period labelsC6
          = .ok [PValue.s "Overdue", PValue.s "Due", PValue.s "3 Weeks"])
    ∧ ((∀ v ∈ labelsC6,
          ([PValue.s "Overdue", PValue.s "Due", PValue.s "3 Weeks"].countP
            (fun x => decide (x = v))) = 1)
        ∧ (∀ v ∈ [PValue.s "Overdue", PValue.s "Due", PValue.s "3 Weeks"],
            v ∉ labelsC6 → v = PValue.s "Overdue" ∨ v = PValue.s "Due")
        ∧ PValue.s "Overdue" ∈ [PValue.s "Overdue", PValue.s "Due", PValue.s "3 Weeks"]
        ∧ PValue.s "Due" ∈ [PValue.s "Overdue", PValue.s "Due", PValue.s "3 Weeks"]) :=
  ⟨⟨by decide, by decide, by decide⟩,
    claim_C6_category_order_membership labelsC6 (by decide) (by decide) _ (by decide)⟩

/-- Counterexample to C7: an empty-string label makes the sort key evaluate
`"".split()[0]`, raising `IndexError` — building the category order does
raise on such label lists. -/
theorem claim_C7_counterexample :
    order_ppc_delivery_period [PValue.s ""] = .error PyErr.indexError := by decide

/-- C7 (amended): for every observed label list in which each string label
has at least one whitespace-delimited token (so the sort key computes; an
empty or all-whitespace string label instead raises `IndexError`, and a null
label fails the Categorical constructor), building the category order
returns normally; labels with sort key 0 — those not beginning with a
positive integer token, including non-string labels — appear after every
positive-key label and keep their original encounter order. -/
theorem claim_C7_total_and_fallback_order :
    ∀ colVals : List PValue, (∀ v ∈ colVals, ppcKeyOk v = true) →
      PValue.none_ ∉ colVals →
      ∃ weeks, order_ppc_delivery_period colVals = .ok (ppcFixedLabels ++ weeks)
        ∧ weeks.filter (fun v => decide (keyTotal v = 0))
            = (remainderPPC colVals).filter (fun v => decide (keyTotal v = 0))
        ∧ weeks = weeks.filter (fun v => decide (1 ≤ keyTotal v))
            ++ weeks.filter (fun v => decide (keyTotal v = 0)) := by
  intro colVals h1 h2
  obtain ⟨w, ha, _, _, hd, he⟩ := order_ppc_ok_structure colVals h1 h2
  exact ⟨w, ha, hd, he⟩

/-- Witness for C7 (amended), at labels containing a non-numeric-leading
string, a non-string label and week labels. -/
theorem claim_C7_witness :
    ((∀ v ∈ labelsC7, ppcKeyOk v = true) ∧ PValue.none_ ∉ labelsC7)
    ∧ ∃ weeks, order_ppc_delivery_period labelsC7 = .ok (ppcFixedLabels ++ weeks)
        ∧ weeks.filter (fun v => decide (keyTotal v = 0))
            = (remainderPPC labelsC7).filter (fun v => decide (keyTotal v = 0))
        ∧ weeks = weeks.filter (fun v => decide (1 ≤ keyTotal v))
            ++ weeks.filter (fun v => decide (keyTotal v = 0)) :=
  ⟨⟨by decide, by decide⟩,
    claim_C7_total_and_fallback_order labelsC7 (by decide) (by decide)⟩

/-! ## Claim C4 — Aggregator per-bucket truncation -/

theorem headPerBucketGo_filter (n : Nat) (c : PValue) :
    ∀ (l : List AggRow) (seen : List PValue),
      (headPerBucketGo n seen l).filter (fun r => decide (r.ppc = c))
        = (l.filter (fun r => decide (r.ppc = c))).take
            (n - seen.countP (fun v => decide (v = c))) := by
  intro l
  induction l with
  | nil => intro seen; simp [headPerBucketGo]
  | cons r rs ih =>
    intro seen
    by_cases hc : r.ppc = c
    · subst hc
      have hcnt : (r.ppc :: seen).countP (fun v => decide (v = r.ppc))
          = seen.countP (fun v => decide (v = r.ppc)) + 1 := by
        simp [List.countP_cons]
      by_cases hlt : seen.countP (fun v => decide (v = r.ppc)) < n
      · rw [headPerBucketGo, if_pos hlt, List.filter_cons_of_pos (by simp),
            List.filter_cons_of_pos (by simp), ih, hcnt]
        have hstep : n - seen.countP (fun v => decide (v = r.ppc))
            = (n - (seen.countP (fun v => decide (v = r.ppc)) + 1)) + 1 := by omega
        rw [hstep, List.take_succ_cons]
      · rw [headPerBucketGo, if_neg hlt, ih, hcnt]
        have h0 : n - (seen.countP (fun v => decide (v = r.ppc)) + 1) = 0 := by omega
        have h0b : n - seen.countP (fun v => decide (v = r.ppc)) = 0 := by omega
        rw [h0, h0b]
        simp
    · have hcnt : (r.ppc :: seen).countP (fun v => decide (v = c))
          = seen.countP (fun v => decide (v = c)) := by
        simp [List.countP_cons, hc]
      by_cases hlt : seen.countP (fun v => decide (v = r.ppc)) < n
      · rw [headPerBucketGo, if_pos hlt, List.filter_cons_of_neg (by simp [hc]),
            List.filter_cons_of_neg (by simp [hc]), ih, hcnt]
      · rw [headPerBucketGo, if_neg hlt, List.filter_cons_of_neg (by simp [hc]), ih, hcnt]

theorem headPerBucket_filter (n : Nat) (c : PValue) (l : List AggRow) :
    (headPerBucket n l).filter (fun r => decide (r.ppc = c))
      = (l.filter (fun r => decide (r.ppc = c))).take n := by
  unfold headPerBucket
  rw [headPerBucketGo_filter]
  simp

theorem sortAggRows_pairwise (cat_order : List PValue) (rows : List AggRow) :
    (sortAggRows cat_order rows).Pairwise (fun x y : AggRow =>
      ppcRank cat_order x.ppc < ppcRank cat_order y.ppc
      ∨ (ppcRank cat_order x.ppc = ppcRank cat_order y.ppc ∧ y.total ≤ x.total)) := by
  unfold sortAggRows
  exact List.Pairwise.map _ (fun a b hab => by unfold aggSortRel at hab; omega)
    (List.sorted_insertionSort (aggSortRel cat_order) (rows.enumFrom 0))

theorem sortAggRows_bucket_pairwise (cat_order : List PValue) (rows : List AggRow)
    (c : PValue) :
    ((sortAggRows cat_order rows).filter (fun r => decide (r.ppc = c))).Pairwise
      (fun x y => y.total ≤ x.total) := by
  refine ((sortAggRows_pairwise cat_order rows).filter
    (fun r => decide (r.ppc = c))).imp_of_mem ?_
  intro a b ha hb hab
  have ha2 : a.ppc = c := by simpa using List.of_mem_filter ha
  have hb2 : b.ppc = c := by simpa using List.of_mem_filter hb
  rcases hab with h | ⟨_, h⟩
  · rw [ha2, hb2] at h
    exact absurd h (lt_irrefl _)
  · exact h

/-- C4: after the Aggregator's ordering stage (category position ascending,
then summed total descending, stable), the per-bucket truncation
`groupby('PPC Delivery Period').head(top_n)` keeps within each category
bucket exactly the first `n` rows in unchanged relative order: the bucket
restriction of the output is the `take n` prefix of the bucket restriction of
the sorted rows, its cardinality is `min n (bucket size)` (so a bucket of 5
distinct groups with `n = 2` yields exactly 2 rows), and every kept row's
total is at least every dropped row's total — the kept rows are the bucket's
`n` highest-total rows. -/
theorem claim_C4_aggregator_top_n :
    ∀ (cat_order : List PValue) (rows : List AggRow) (n : Nat) (c : PValue),
      (headPerBucket n (sortAggRows cat_order rows)).filter (fun r => decide (r.ppc = c))
          = ((sortAggRows cat_order rows).filter (fun r => decide (r.ppc = c))).take n
      ∧ ((headPerBucket n (sortAggRows cat_order rows)).filter
            (fun r => decide (r.ppc = c))).length
          = min n ((sortAggRows cat_order rows).filter (fun r => decide (r.ppc = c))).length
      ∧ ∀ a ∈ ((sortAggRows cat_order rows).filter (fun r => decide (r.ppc = c))).take n,
          ∀ b ∈ ((sortAggRows cat_order rows).filter (fun r => decide (r.ppc = c))).drop n,
            b.total ≤ a.total := by
  intro co rows n c
  refine ⟨headPerBucket_filter n c _, ?_, ?_⟩
  · rw [headPerBucket_filter]
    exact List.length_take n _
  · intro a ha b hb
    have hp := sortAggRows_bucket_pairwise co rows c
    rw [← List.take_append_drop n ((sortAggRows co rows).filter
      (fun r => decide (r.ppc = c)))] at hp
    exact (List.pairwise_append.mp hp).2.2 a ha b hb

/-- Witness for C4: a two-row bucket with `top_n = 1` — the kept row has the
higher total. -/
theorem claim_C4_witness :
    (AggRow.mk [] (PValue.s "Overdue") 9
        ∈ ((sortAggRows [PValue.s "Overdue"] c4rows).filter
            (fun r => decide (r.ppc = PValue.s "Overdue"))).take 1)
    ∧ (AggRow.mk [] (PValue.s "Overdue") 5
        ∈ ((sortAggRows [PValue.s "Overdue"] c4rows).filter
            (fun r => decide (r.ppc = PValue.s "Overdue"))).drop 1)
    ∧ (AggRow.mk [] (PValue.s "Overdue") 5).total
        ≤ (AggRow.mk [] (PValue.s "Overdue") 9).total :=
  ⟨by decide, by decide,
    (claim_C4_aggregator_top_n [PValue.s "Overdue"] c4rows 1 (PValue.s "Overdue")).2.2
      _ (by decide) _ (by decide)⟩

/-! ## Claim C8 — Aggregator input-error contract -/

theorem order_ppc_error_shape {colVals : List PValue} {e : PyErr}
    (h : order_ppc_delivery_period colVals = .error e) :
    e = PyErr.indexError ∨ e = PyErr.valueError "Categorical categories cannot be null" := by
  cases hm : mapKeysE (remainderPPC colVals) with
  | error e2 =>
    simp only [order_ppc_delivery_period, hm] at h
    cases h
    exact Or.inl (mapKeysE_error_eq hm)
  | ok keyed =>
    simp only [order_ppc_delivery_period, hm] at h
    by_cases hin : PValue.none_ ∈ ppcFixedLabels ++ (pyStableSortDesc keyed).map (fun p => p.1)
    · rw [if_pos hin] at h
      cases h
      exact Or.inr rfl
    · rw [if_neg hin] at h
      exact Except.noConfusion h

/-- Counterexample to C8: the requested group column `"kt"` succeeds
Normalizer resolution against the table's columns (matching `"KT"`), yet
`process_query` rejects the request — its check is exact, case-sensitive
membership, not Normalizer resolution. -/
theorem claim_C8_counterexample :
    process_query dfC8 "Mined" "qty" ["kt"] none
        = .error (.valueError "Missing attributes in data")
    ∧ resolveColumn dfC8.cols "kt" = some "KT" :=
  ⟨by decide, by decide⟩

/-- C8 (amended): `process_query` fails with the missing-attributes
`ValueError` if and only if some requested group column is not *exactly* a
column of the table (case-sensitive membership, not Normalizer resolution);
that check comes first. A missing metric column is not rejected up front: it
surfaces as a `KeyError` only at the grouping step, after the
`order_type_classified` filter column has been checked (whose absence wins
with its own `KeyError`). -/
theorem claim_C8_error_contract :
    ∀ (df : DF) (order_type metric : String) (attributes : List String)
      (top_n : Option Nat),
      (process_query df order_type metric attributes top_n
          = .error (.valueError "Missing attributes in data")
        ↔ ∃ a ∈ attributes, a ∉ df.cols)
      ∧ ((∀ a ∈ attributes, a ∈ df.cols) → "order_type_classified" ∉ df.cols →
          process_query df order_type metric attributes top_n
            = .error (.keyError "order_type_classified"))
      ∧ ((∀ a ∈ attributes, a ∈ df.cols) → "order_type_classified" ∈ df.cols →
          "PPC Delivery Period" ∈ df.cols → metric ∉ df.cols →
          process_query df order_type metric attributes top_n
            = .error (.keyError metric)) := by
  intro df ot metric attrs top_n
  have hmissdef : (attrs.filter (fun a => !(decide (a ∈ df.cols))) ≠ [])
      ↔ ∃ a ∈ attrs, a ∉ df.cols := by
    rw [Ne, List.filter_eq_nil_iff]
    push_neg
    constructor
    · rintro ⟨a, ha, hpa⟩
      exact ⟨a, ha, by simpa using hpa⟩
    · rintro ⟨a, ha, hpa⟩
      exact ⟨a, ha, by simpa using hpa⟩
  by_cases hmiss : attrs.filter (fun a => !(decide (a ∈ df.cols))) = []
  · have hnotex : ¬ ∃ a ∈ attrs, a ∉ df.cols := by
      rw [← hmissdef]
      simp [hmiss]
    refine ⟨⟨fun hres => ?_, fun hex => absurd hex hnotex⟩, fun _ hotc => ?_, ?_⟩
    · exfalso
      unfold process_query at hres
      rw [if_neg (by simp [hmiss])] at hres
      by_cases hotc : "order_type_classified" ∉ df.cols
      · rw [if_pos hotc] at hres
        exact absurd hres (by decide)
      · rw [if_neg hotc] at hres
        by_cases hppc : "PPC Delivery Period" ∉ df.cols
        · rw [if_pos hppc] at hres
          exact absurd hres (by decide)
        · rw [if_neg hppc] at hres
          by_cases hmet : metric ∉ df.cols
          · rw [if_pos hmet] at hres
            simp only [Except.error.injEq] at hres
            exact PyErr.noConfusion hres
          · rw [if_neg hmet] at hres
            cases ho : order_ppc_delivery_period
                ((pq_agg df ot metric attrs).map (fun r => r.ppc)) with
            | error e =>
              simp only [ho] at hres
              have he := order_ppc_error_shape ho
              rcases he with rfl | rfl
              · exact absurd hres (by decide)
              · exact absurd hres (by decide)
            | ok co =>
              simp only [ho] at hres
              cases top_n <;> exact Except.noConfusion hres
    · unfold process_query
      rw [if_neg (by simp [hmiss]), if_pos hotc]
    · intro _ hotc hppc hmet
      unfold process_query
      rw [if_neg (by simp [hmiss]), if_neg (by simpa using hotc),
          if_neg (by simpa using hppc), if_pos hmet]
  · have hex : ∃ a ∈ attrs, a ∉ df.cols := hmissdef.mp hmiss
    refine ⟨⟨fun _ => hex, fun _ => ?_⟩, fun hall _ => ?_, fun hall _ _ _ => ?_⟩
    · unfold process_query
      rw [if_pos hmiss]
    · exfalso
      obtain ⟨a, ha, hna⟩ := hex
      exact hna (hall a ha)
    · exfalso
      obtain ⟨a, ha, hna⟩ := hex
      exact hna (hall a ha)

/-- Witness for C8 (amended): a table lacking `order_type_classified` but
also lacking the metric — the filter column's KeyError wins, showing the
metric is not checked up front. -/
theorem claim_C8_witness :
    ((∀ a ∈ ["KT"], a ∈ dfC8b.cols) ∧ "order_type_classified" ∉ dfC8b.cols)
    ∧ process_query dfC8b "Mined" "missing_metric" ["KT"] none
        = .error (.keyError "order_type_classified") :=
  ⟨⟨by decide, by decide⟩,
    (claim_C8_error_contract dfC8b "Mined" "missing_metric" ["KT"] none).2.1
      (by decide) (by decide)⟩

/-! ## Claims C3 and C10 — Header Locator -/

theorem detectScan_all_bad (previews : Nat → Option (List String)) :
    ∀ ks : List Nat,
      (∀ k ∈ ks, ∀ cols, previews k = some cols → isGoodHeader cols = false) →
      detectScan previews ks = (0, none) := by
  intro ks
  induction ks with
  | nil => intro _; rfl
  | cons k ks ih =>
    intro h
    cases hp : previews k with
    | none =>
      simp only [detectScan, hp]
      exact ih (fun j hj => h j (List.mem_cons_of_mem _ hj))
    | some cols =>
      simp only [detectScan, hp]
      rw [if_neg (by simp [h k (List.mem_cons_self _ _) cols hp])]
      exact ih (fun j hj => h j (List.mem_cons_of_mem _ hj))

theorem detectScan_first (previews : Nat → Option (List String)) :
    ∀ (ks1 : List Nat) (k : Nat) (ks2 : List Nat) (cols : List String),
      (∀ j ∈ ks1, ∀ cols', previews j = some cols' → isGoodHeader cols' = false) →
      previews k = some cols → isGoodHeader cols = true →
      detectScan previews (ks1 ++ k :: ks2) = (k, some cols) := by
  intro ks1
  induction ks1 with
  | nil =>
    intro k ks2 cols _ hk hg
    rw [List.nil_append]
    simp only [detectScan, hk]
    rw [if_pos hg]
  | cons j js ih =>
    intro k ks2 cols hbad hk hg
    rw [List.cons_append]
    cases hp : previews j with
    | none =>
      simp only [detectScan, hp]
      exact ih k ks2 cols (fun i hi => hbad i (List.mem_cons_of_mem _ hi)) hk hg
    | some cols' =>
      simp only [detectScan, hp]
      rw [if_neg (by simp [hbad j (List.mem_cons_self _ _) cols' hp])]
      exact ih k ks2 cols (fun i hi => hbad i (List.mem_cons_of_mem _ hi)) hk hg

theorem isGoodHeader_false_of_short {cols : List String} (h : cols.length ≤ 3) :
    isGoodHeader cols = false := by
  simp only [isGoodHeader, Bool.and_eq_false_iff]
  right
  simpa using by omega

/-- C3: the Header Locator scans offsets 0 through 4 in ascending order and
returns the first offset whose preview is accepted (genuine-text columns over
50%, synthetic-plus-numeric under 30%, more than 3 columns), together with
that offset's column names; when no candidate is accepted — in particular for
every table whose previews all have only 2 columns — it falls back to offset
0 with no column-name report. -/
theorem claim_C3_header_locator :
    ∀ previews : Nat → Option (List String),
      (∀ k cols, k < 5 → previews k = some cols → isGoodHeader cols = true →
        (∀ j cols', j < k → previews j = some cols' → isGoodHeader cols' = false) →
        detect_header_row previews = (k, some cols))
      ∧ ((∀ j cols', j < 5 → previews j = some cols' → isGoodHeader cols' = false) →
        detect_header_row previews = (0, none))
      ∧ ((∀ j cols', j < 5 → previews j = some cols' → cols'.length = 2) →
        detect_header_row previews = (0, none)) := by
  intro previews
  have hfallback : (∀ j cols', j < 5 → previews j = some cols' →
      isGoodHeader cols' = false) → detect_header_row previews = (0, none) :=
    fun hbad => detectScan_all_bad previews [0, 1, 2, 3, 4]
      (fun k hk cols hp => hbad k cols (by simp at hk; omega) hp)
  refine ⟨?_, hfallback, fun h2 => hfallback (fun j cols' hj hp =>
    isGoodHeader_false_of_short (by rw [h2 j cols' hj hp]; omega))⟩
  intro k cols hk hp hg hprev
  unfold detect_header_row
  interval_cases k
  · exact detectScan_first previews [] 0 [1, 2, 3, 4] cols (by simp) hp hg
  · exact detectScan_first previews [0] 1 [2, 3, 4] cols
      (fun j hj cols' hpj => hprev j cols' (by simp at hj; omega) hpj) hp hg
  · exact detectScan_first previews [0, 1] 2 [3, 4] cols
      (fun j hj cols' hpj => hprev j cols' (by simp at hj; omega) hpj) hp hg
  · exact detectScan_first previews [0, 1, 2] 3 [4] cols
      (fun j hj cols' hpj => hprev j cols' (by simp at hj; omega) hpj) hp hg
  · exact detectScan_first previews [0, 1, 2, 3] 4 [] cols
      (fun j hj cols' hpj => hprev j cols' (by simp at hj; omega) hpj) hp hg

/-- Witness for C3: offset 0 previews a noisy row, offset 1 a genuine header
of 4 text columns — the locator returns offset 1 with its column names. -/
theorem claim_C3_witness :
    (previewsEx 1 = some ["Item", "Qty", "Price", "Total"]
      ∧ isGoodHeader ["Item", "Qty", "Price", "Total"] = true
      ∧ isGoodHeader ["Unnamed: 0", "1", "2", "3"] = false)
    ∧ detect_header_row previewsEx = (1, some ["Item", "Qty", "Price", "Total"]) :=
  ⟨⟨rfl, by decide, by decide⟩,
    (claim_C3_header_locator previewsEx).1 1 ["Item", "Qty", "Price", "Total"]
      (by omega) rfl (by decide)
      (fun j cols' hj hpj => by
        have hj0 : j = 0 := by omega
        subst hj0
        have hc : cols' = ["Unnamed: 0", "1", "2", "3"] := by
          have h0 : previewsEx 0 = some ["Unnamed: 0", "1", "2", "3"] := rfl
          exact (Option.some.inj (h0.symm.trans hpj)).symm
        rw [hc]
        decide)⟩

theorem detectScan_sound (previews : Nat → Option (List String)) :
    ∀ ks : List Nat, (∀ k ∈ ks, k < 5) →
      (detectScan previews ks).1 < 5 ∧
      ((detectScan previews ks).2 = none ∨
        ∃ cols, (detectScan previews ks).2 = some cols ∧
          previews (detectScan previews ks).1 = some cols ∧ isGoodHeader cols = true) := by
  intro ks
  induction ks with
  | nil => intro _; exact ⟨by simp [detectScan], Or.inl rfl⟩
  | cons k ks ih =>
    intro h
    cases hp : previews k with
    | none =>
      simp only [detectScan, hp]
      exact ih (fun j hj => h j (List.mem_cons_of_mem _ hj))
    | some cols =>
      simp only [detectScan, hp]
      by_cases hg : isGoodHeader cols = true
      · rw [if_pos hg]
        exact ⟨h k (List.mem_cons_self _ _), Or.inr ⟨cols, rfl, hp, hg⟩⟩
      · rw [if_neg hg]
        exact ih (fun j hj => h j (List.mem_cons_of_mem _ hj))

/-- C10: `detect_header_row` is total — parse failures at an offset are
caught and the scan continues (modelled by `previews k = none`) — and its
result is always an offset between 0 and 4 inclusive paired with either
`none` or that offset's accepted column-name list. -/
theorem claim_C10_header_locator_total :
    ∀ previews : Nat → Option (List String),
      (detect_header_row previews).1 < 5
      ∧ ((detect_header_row previews).2 = none
        ∨ ∃ cols, (detect_header_row previews).2 = some cols
            ∧ previews (detect_header_row previews).1 = some cols
            ∧ isGoodHeader cols = true) := by
  intro previews
  exact detectScan_sound previews [0, 1, 2, 3, 4] (fun k hk => by simp at hk; omega)

/-! ## Claims C1, C2, C9 — fiscal window and date cascade of `query_data` -/

/-- C1: the claim's window rule and all three examples hold of the
spec-modelled calculator, and the code's quarter-start formula agrees with it
on every valid month; but the code's end-day expression evaluates
`pd.Period(f"{y}-{m}").asfreq('Q').month_end` — `pandas.Period` has no
`month_end` attribute — so for every reference date the code's fiscal-window
computation raises `AttributeError` instead of returning the claimed window. -/
theorem claim_C1_fiscal_window :
    (∀ ty tm : Nat, last_quarter_window ty tm = .error (.attributeError "month_end"))
    ∧ spec_last_completed_quarter 2025 2 = ((2024, 10, 1), (2024, 12, 31))
    ∧ spec_last_completed_quarter 2025 5 = ((2025, 1, 1), (2025, 3, 31))
    ∧ spec_last_completed_quarter 2025 11 = ((2025, 7, 1), (2025, 9, 30))
    ∧ (∀ ty tm : Nat, 1 ≤ tm → tm ≤ 12 →
        ((last_quarter_start ty tm).1, (last_quarter_start ty tm).2, 1)
          = (spec_last_completed_quarter ty tm).1) := by
  refine ⟨fun ty tm => rfl, by decide, by decide, by decide, ?_⟩
  intro ty tm h1 h2
  interval_cases tm <;> rfl

/-- Witness for C1's quarter-start agreement, at reference month 2025-05. -/
theorem claim_C1_witness :
    ((1 : Nat) ≤ 5 ∧ (5 : Nat) ≤ 12)
    ∧ ((last_quarter_start 2025 5).1, (last_quarter_start 2025 5).2, 1)
        = (spec_last_completed_quarter 2025 5).1 :=
  ⟨⟨by decide, by decide⟩, claim_C1_fiscal_window.2.2.2.2 2025 5 (by decide) (by decide)⟩

/-- C2: the cascade applies the claimed strategies in the claimed order with
the claimed 50% threshold, but every later strategy re-parses the overwritten
column rather than the original values. On the day-first column
`["01/02/2025","13/05/2025","14/05/2025","15/05/2025"]` strategy (a) guesses
the month-first format from the first value and coerces the other three to
NaT; the `dayfirst=True` and explicit-format retries are identities on the
already-datetime column, so the request fails with `DateParseFailure` — even
though the day-first strategy applied to the original values (second
conjunct) parses all four, and the independent cascade the claim describes
(third conjunct) accepts it at 100% validity. -/
theorem claim_C2_date_cascade :
    query_parse_dates ⟨false, cellsC2⟩ = .error (.valueError "Could not parse date column")
    ∧ to_datetime_dayfirst ⟨false, cellsC2⟩
        = ⟨true, [.parsed 2025 2 1, .parsed 2025 5 13, .parsed 2025 5 14, .parsed 2025 5 15]⟩
    ∧ spec_resolve_dates ⟨false, cellsC2⟩
        = some ⟨true, [.parsed 2025 2 1, .parsed 2025 5 13, .parsed 2025 5 14, .parsed 2025 5 15]⟩ :=
  ⟨by decide, by decide, by decide⟩

/-- C9: a table with one valid date outside the window should, per the claim,
yield a successful empty result with diagnostics (`total_rows = 1 > 0`,
`valid_date_rows = 1`, zero matched records) — the spec-modelled tail does
exactly that — but the code's tail raises `AttributeError` at the fiscal
window computation before it can build that response, so the claimed success
path is unreachable. A genuinely unparseable column (third conjunct) is
rejected with the structured `DateParseFailure` error, as the claim says. -/
theorem claim_C9_empty_window_diagnostics :
    query_tail cellsC9 ["A"] 2025 2 = .error (.attributeError "month_end")
    ∧ spec_query_tail cellsC9 ["A"] 2025 2
        = .ok ⟨[], (2024, 10, 1), (2024, 12, 31), 0, 1⟩
    ∧ query_tail [DateCell.junk, DateCell.junk] ["A", "B"] 2025 2
        = .error (.valueError "Could not parse date column") :=
  ⟨by decide, by decide, by decide⟩
